import Mathlib

/-!
Verification of the pi-subagent runner/aggregation core.

Shallow embedding of `src/types.ts`, `src/runner.ts` and the guard phase of
`src/index.ts`.  JavaScript numbers are modelled as exact integers (token
counts and costs; the claims below concern only their additive and order
structure) or naturals (turn counters, indices); fallible phases
return `Option`; the cooperative event-loop interleaving of the concurrency
helper is modelled as an explicit small-step worker machine driven by an
arbitrary schedule.
-/

namespace PiSubagent

/-- Aggregated token usage from a subagent run (`UsageStats` in `src/types.ts`). -/
structure UsageStats where
  input : Int
  output : Int
  cacheRead : Int
  cacheWrite : Int
  cost : Int
  contextTokens : Int
  turns : Nat
deriving DecidableEq, Repr

/-- One content part of a conversational message (text or tool invocation). -/
inductive ContentPart where
  | text (s : String)
  | toolCall (n : String) (args : List (String × String))
deriving DecidableEq, Repr

/-- Usage block carried on an assistant message in the child's JSON protocol.
Every field may be absent; `costTotal` collapses the optional `cost.total`
chain of the source (`usage.cost?.total`). -/
structure MsgUsage where
  input : Option Int
  output : Option Int
  cacheRead : Option Int
  cacheWrite : Option Int
  costTotal : Option Int
  totalTokens : Option Int
deriving DecidableEq, Repr

/-- A conversational message from the child process protocol. -/
structure Message where
  role : String
  content : List ContentPart
  usage : Option MsgUsage
  model : Option String
  stopReason : Option String
  errorMessage : Option String
deriving DecidableEq, Repr

/-- Result of a single subagent invocation (`SingleResult` in `src/types.ts`). -/
structure SingleResult where
  agent : String
  agentSource : String
  task : String
  exitCode : Int
  messages : List Message
  stderr : String
  usage : UsageStats
  model : Option String
  stopReason : Option String
  errorMessage : Option String
deriving DecidableEq, Repr

/-- `emptyUsage()` from `src/types.ts`: zero-initialized counters. -/
def emptyUsage : UsageStats :=
  { input := 0, output := 0, cacheRead := 0, cacheWrite := 0, cost := 0,
    contextTokens := 0, turns := 0 }

/-- JavaScript truthiness of an optional string: `undefined` and `""` are falsy. -/
def truthyS (o : Option String) : Bool :=
  match o with
  | some s => !s.isEmpty
  | none => false

/-- Characters removed by JavaScript's `String.prototype.trim` (ASCII
whitespace subset relevant to the line protocol). -/
def jsWhitespace (c : Char) : Bool :=
  c = ' ' || c = '\t' || c = '\n' || c = '\r' || c = '\x0b' || c = '\x0c'

/-- Model of the external JavaScript builtin `String.prototype.trim`:
drop whitespace from both ends. -/
def jsTrim (s : String) : String :=
  String.mk (((s.toList.dropWhile jsWhitespace).reverse.dropWhile jsWhitespace).reverse)

/-- A successfully JSON-parsed line, as the fields `processJsonLine` reads:
the `type` discriminant (absent or non-string modelled as `none`) and the
optional `message` payload (absent / falsy modelled as `none`). -/
structure EventJson where
  type : Option String
  message : Option Message
deriving DecidableEq, Repr

/-- Outcome of `JSON.parse` on one line: either the parse throws
(`notJson`) or it yields a structured event. -/
inductive LineContent where
  | notJson
  | json (e : EventJson)
deriving DecidableEq, Repr

/-- The `message_end` branch of `processJsonLine` (`src/runner.ts` lines 47-67):
append the message; for assistant messages bump the turn counter, fold usage
deltas (context tokens overwritten, not summed), record the model if none is
recorded yet, and record stop-reason / error message last-write-wins. -/
def applyMessageEnd (msg : Message) (r : SingleResult) : SingleResult :=
  let r1 := { r with messages := r.messages ++ [msg] }
  if msg.role = "assistant" then
    let u1 := { r1.usage with turns := r1.usage.turns + 1 }
    let u2 :=
      match msg.usage with
      | some mu =>
        { u1 with
          input := u1.input + mu.input.getD 0,
          output := u1.output + mu.output.getD 0,
          cacheRead := u1.cacheRead + mu.cacheRead.getD 0,
          cacheWrite := u1.cacheWrite + mu.cacheWrite.getD 0,
          cost := u1.cost + mu.costTotal.getD 0,
          contextTokens := mu.totalTokens.getD 0 }
      | none => u1
    let r2 := { r1 with usage := u2 }
    let r3 :=
      if !(truthyS r2.model) && truthyS msg.model then { r2 with model := msg.model } else r2
    let r4 :=
      if truthyS msg.stopReason then { r3 with stopReason := msg.stopReason } else r3
    if truthyS msg.errorMessage then { r4 with errorMessage := msg.errorMessage } else r4
  else r1

/-- `processJsonLine` from `src/runner.ts` (lines 41-75), in explicit
state-passing form: the boolean is the source's return value and the second
component the (possibly updated) result record.  The raw line text and the
outcome of `JSON.parse` on it are passed separately since the JSON parser is
an external library call. -/
def processJsonLine (lineText : String) (content : LineContent) (r : SingleResult) :
    Bool × SingleResult :=
  if jsTrim lineText = "" then (false, r)
  else
    match content with
    | .notJson => (false, r)
    | .json e =>
      match e.type, e.message with
      | some "message_end", some msg => (true, applyMessageEnd msg r)
      | some "tool_result_end", some msg => (true, { r with messages := r.messages ++ [msg] })
      | _, _ => (false, r)

/-- Fold a sequence of stream lines into a result record. -/
def runLines (ls : List (String × LineContent)) (r : SingleResult) : SingleResult :=
  ls.foldl (fun acc l => (processJsonLine l.1 l.2 acc).2) r

/-- One accumulation step of `aggregateUsage` from `src/types.ts` (lines 50-61):
all additive fields are summed; `contextTokens` is never touched. -/
def addUsage (total : UsageStats) (r : SingleResult) : UsageStats :=
  { total with
    input := total.input + r.usage.input,
    output := total.output + r.usage.output,
    cacheRead := total.cacheRead + r.usage.cacheRead,
    cacheWrite := total.cacheWrite + r.usage.cacheWrite,
    cost := total.cost + r.usage.cost,
    turns := total.turns + r.usage.turns }

/-- `aggregateUsage` from `src/types.ts`: sum usage across multiple results. -/
def aggregateUsage (results : List SingleResult) : UsageStats :=
  results.foldl addUsage emptyUsage

/-- First text part of a message's content list (inner loop of
`getFinalOutput` in `src/types.ts`). -/
def firstTextPart : List ContentPart → Option String
  | [] => none
  | .text s :: _ => some s
  | .toolCall _ _ :: rest => firstTextPart rest

/-- Backwards scan of `getFinalOutput`: the message list is given already
reversed; return the first assistant message's first text part. -/
def getFinalOutputAux : List Message → String
  | [] => ""
  | m :: rest =>
    if m.role = "assistant" then
      match firstTextPart m.content with
      | some s => s
      | none => getFinalOutputAux rest
    else getFinalOutputAux rest

/-- `getFinalOutput` from `src/types.ts` (lines 69-79): last assistant text
in a message history. -/
def getFinalOutput (messages : List Message) : String :=
  getFinalOutputAux messages.reverse

/-- An agent configuration record (`AgentConfig` in `src/agents.ts`). -/
structure AgentConfig where
  name : String
  description : String
  tools : Option (List String)
  model : Option String
  thinking : Option String
  systemPrompt : String
  source : String
  filePath : String
deriving DecidableEq, Repr

/-- The enumeration of available agents built in the unknown-agent branch of
`runAgent` (`src/runner.ts` line 124): comma-joined double-quoted names, with
the JavaScript `|| "none"` fallback firing exactly on the empty join. -/
def availableNames (agents : List AgentConfig) : String :=
  let s := String.intercalate ", " (agents.map (fun a => "\"" ++ a.name ++ "\""))
  if s = "" then "none" else s

/-- The stderr message of the unknown-agent early return (`src/runner.ts`
line 131). -/
def unknownAgentMessage (agentName : String) (agents : List AgentConfig) : String :=
  "Unknown agent: \"" ++ agentName ++ "\". Available agents: " ++ availableNames agents ++ "."

/-- The agent-resolution phase of `runAgent` (`src/runner.ts` lines 122-134):
`some result` is the immediate early return taken before any temp file is
written or any process spawned; `none` means the run proceeds to spawning. -/
def runAgentCheck (agents : List AgentConfig) (agentName task : String) :
    Option SingleResult :=
  match agents.find? (fun a => a.name == agentName) with
  | some _ => none
  | none =>
    some
      { agent := agentName, agentSource := "unknown", task := task, exitCode := 1,
        messages := [], stderr := unknownAgentMessage agentName agents,
        usage := emptyUsage, model := none, stopReason := none, errorMessage := none }

/-- The completion step of `runAgent` (`src/runner.ts` lines 210-216), applied
once the child-exit promise resolves.  `wasAborted` is true exactly when the
cancellation token signalled abort before the child process exited (the
`kill` handler runs for a signal already aborted at call time and for one
aborted during execution; it sets the flag before the promise can resolve). -/
def finalizeRun (wasAborted : Bool) (exitCode : Int) (r : SingleResult) : SingleResult :=
  let r1 := { r with exitCode := exitCode }
  if wasAborted then
    let r2 :=
      { r1 with exitCode := 130, stopReason := some "aborted",
                errorMessage := some "Subagent was aborted." }
    if jsTrim r2.stderr = "" then { r2 with stderr := "Subagent was aborted." } else r2
  else r1

/-- Does the second list occur at the head of the first? -/
def seqLeads [DecidableEq α] : List α → List α → Bool
  | [], _ => true
  | _ :: _, [] => false
  | a :: as, b :: bs => a = b && seqLeads as bs

/-- Does `needle` occur contiguously anywhere in `hay`? -/
def seqContains [DecidableEq α] (hay needle : List α) : Bool :=
  match hay with
  | [] => seqLeads needle []
  | _ :: t => seqLeads needle hay || seqContains t needle

/-- Substring test on strings, used to state "the message contains …". -/
def strContains (hay needle : String) : Bool :=
  seqContains hay.toList needle.toList

/-- Status of one worker loop of `mapConcurrent`: waiting to claim the next
index, holding a claimed index (and the item found there) while its `fn`
call is in flight, or returned because the index space is exhausted. -/
inductive WorkerStatus (TIn : Type) where
  | idle
  | holding (i : Nat) (x : TIn)
  | done
deriving DecidableEq, Repr

/-- State of the cooperative fan-out of `mapConcurrent` (`src/runner.ts`
lines 230-250): the shared `nextIndex` counter, the pre-sized results array
(`none` = unfilled slot), the worker loops, and a count of completed `fn`
invocations. -/
structure FanState (TIn TOut : Type) where
  nextIndex : Nat
  results : List (Option TOut)
  workers : List (WorkerStatus TIn)
  calls : Nat
deriving DecidableEq, Repr

/-- One cooperative step of worker `w`: an idle worker atomically claims
`nextIndex` (post-incrementing it) and returns if the claimed index is out of
range, exactly as `const i = nextIndex++; if (i >= items.length) return;`;
a worker whose `fn` call resolves writes the value into its claimed slot and
goes back to claiming.  Steps naming a nonexistent or returned worker are
no-ops. -/
def fanStep (items : List TIn) (fn : TIn → Nat → TOut)
    (s : FanState TIn TOut) (w : Nat) : FanState TIn TOut :=
  match s.workers.get? w with
  | none => s
  | some .idle =>
    match items.get? s.nextIndex with
    | some x =>
      { s with nextIndex := s.nextIndex + 1,
               workers := s.workers.set w (.holding s.nextIndex x) }
    | none =>
      { s with nextIndex := s.nextIndex + 1,
               workers := s.workers.set w .done }
  | some (.holding i x) =>
    { s with results := s.results.set i (some (fn x i)),
             workers := s.workers.set w .idle,
             calls := s.calls + 1 }
  | some .done => s

/-- Initial fan-out state: `new Array(items.length)` of unfilled slots and
`limit` idle workers. -/
def fanInit (TIn TOut : Type) (n limit : Nat) : FanState TIn TOut :=
  { nextIndex := 0, results := List.replicate n none,
    workers := List.replicate limit .idle, calls := 0 }

/-- Run the fan-out under an arbitrary interleaving: the schedule names which
worker advances at each event-loop turn. -/
def fanRun (items : List TIn) (fn : TIn → Nat → TOut)
    (s : FanState TIn TOut) (sched : List Nat) : FanState TIn TOut :=
  sched.foldl (fanStep items fn) s

/-- `Promise.all` has resolved: every worker loop has returned. -/
def allFinished (s : FanState TIn TOut) : Bool :=
  s.workers.all (fun st => match st with | .done => true | _ => false)

/-- Collect a fully-filled results array, failing if any slot is unfilled. -/
def collectSome : List (Option α) → Option (List α)
  | [] => some []
  | none :: _ => none
  | some a :: rest => (collectSome rest).map (a :: ·)

/-- `mapConcurrent` from `src/runner.ts` (lines 230-250): empty input returns
immediately; otherwise the effective concurrency is
`Math.max(1, Math.min(concurrency, items.length))` and the worker machine
runs under the given schedule.  `some (results, calls)` is returned when the
schedule drives every worker to completion; `calls` counts `fn` invocations. -/
def mapConcurrent (items : List TIn) (concurrency : Nat) (fn : TIn → Nat → TOut)
    (sched : List Nat) : Option (List TOut × Nat) :=
  if items.length = 0 then some ([], 0)
  else
    let limit := max 1 (min concurrency items.length)
    let final := fanRun items fn (fanInit TIn TOut items.length limit) sched
    if allFinished final then
      match collectSome final.results with
      | some res => some (res, final.calls)
      | none => none
    else none

/-- Index-aware map, the specification value of `mapConcurrent`: element `i`
of the result is `fn items[i] i`. -/
def idxMapFrom (k : Nat) (fn : TIn → Nat → TOut) : List TIn → List TOut
  | [] => []
  | a :: rest => fn a k :: idxMapFrom (k + 1) fn rest

/-- `idxMap items fn` lists `fn items[i] i` in input order. -/
def idxMap (items : List TIn) (fn : TIn → Nat → TOut) : List TOut :=
  idxMapFrom 0 fn items

/-- `MAX_PARALLEL_TASKS` from `src/index.ts` line 23. -/
def maxParallelTasks : Nat := 8

/-- `MAX_CONCURRENCY` from `src/index.ts` line 24. -/
def maxConcurrency : Nat := 4

/-- One requested task of parallel mode (`TaskItem` in `src/index.ts`). -/
structure TaskItem where
  agent : String
  task : String
  cwd : Option String
deriving DecidableEq, Repr

/-- The rejection text of `executeParallel` (`src/index.ts` line 270). -/
def tooManyTasksMessage (n : Nat) : String :=
  "Too many parallel tasks (" ++ toString n ++ "). Max is " ++ toString maxParallelTasks ++ "."

/-- The per-task summary line of `executeParallel` (`src/index.ts` lines 331-334). -/
def taskSummary (r : SingleResult) : String :=
  let out := getFinalOutput r.messages
  "[" ++ r.agent ++ "] " ++ (if r.exitCode = 0 then "completed" else "failed") ++ ": " ++
    (if out = "" then "(no output)" else out)

/-- The final summary text of `executeParallel` (`src/index.ts` lines 330-337). -/
def parallelSummary (results : List SingleResult) : String :=
  let successCount := (results.filter (fun r => r.exitCode == 0)).length
  "Parallel: " ++ toString successCount ++ "/" ++ toString results.length ++
    " succeeded\n\n" ++ String.intercalate "\n\n" (results.map taskSummary)

/-- Outcome of a parallel-mode call: the tool-result text, the result slots
attached to its details, and how many per-task runs were started. -/
structure ParallelOutcome where
  text : String
  results : List SingleResult
  spawnCount : Nat
deriving DecidableEq, Repr

/-- `executeParallel` from `src/index.ts` (lines 260-340), with the per-task
run (`runAgent`) abstracted as `runOne` and the cooperative interleaving as a
schedule: requests beyond `MAX_PARALLEL_TASKS` are rejected before anything
runs (empty result slots, zero runs started); otherwise the tasks are driven
through `mapConcurrent` with `MAX_CONCURRENCY` and summarised. -/
def executeParallel (tasks : List TaskItem) (runOne : TaskItem → Nat → SingleResult)
    (sched : List Nat) : Option ParallelOutcome :=
  if tasks.length > maxParallelTasks then
    some { text := tooManyTasksMessage tasks.length, results := [], spawnCount := 0 }
  else
    match mapConcurrent tasks maxConcurrency runOne sched with
    | some (results, calls) =>
      some { text := parallelSummary results, results := results, spawnCount := calls }
    | none => none

/-- Pointwise order on the six additive `UsageStats` fields (`contextTokens`,
a snapshot, excluded). -/
def AdditiveLE (u v : UsageStats) : Prop :=
  u.input ≤ v.input ∧ u.output ≤ v.output ∧ u.cacheRead ≤ v.cacheRead ∧
  u.cacheWrite ≤ v.cacheWrite ∧ u.cost ≤ v.cost ∧ u.turns ≤ v.turns

/-- All usage values reported on a message are non-negative (after the
`|| 0` defaulting the source applies). -/
def muNonNeg (mu : MsgUsage) : Bool :=
  decide (0 ≤ mu.input.getD 0) && decide (0 ≤ mu.output.getD 0) &&
  decide (0 ≤ mu.cacheRead.getD 0) && decide (0 ≤ mu.cacheWrite.getD 0) &&
  decide (0 ≤ mu.costTotal.getD 0)

/-- A line's parsed content reports no negative usage value. -/
def lineNonNeg : LineContent → Bool
  | .notJson => true
  | .json e =>
    match e.message with
    | some msg =>
      match msg.usage with
      | some mu => muNonNeg mu
      | none => true
    | none => true

/-- Usage delta a message contributes to one accumulator field: the reported
value defaulted to 0, or 0 when the message carries no usage block. -/
def usageDelta (o : Option MsgUsage) (f : MsgUsage → Option Int) : Int :=
  match o with
  | some mu => (f mu).getD 0
  | none => 0

/-- Context-window size after folding a message: overwritten by the reported
snapshot when a usage block is present, otherwise unchanged. -/
def contextAfter (o : Option MsgUsage) (old : Int) : Int :=
  match o with
  | some mu => mu.totalTokens.getD 0
  | none => old

/-- What the spec asserts of the parser on a `message_end` event carrying a
message: `out` is the parser's return value paired with the updated record.
The usage/model/stop-reason extraction clauses are scoped to assistant-role
messages, as in the spec's own component description. -/
def MessageEndSpec (msg : Message) (r : SingleResult) (out : Bool × SingleResult) : Prop :=
  out.1 = true ∧
  out.2.messages = r.messages ++ [msg] ∧
  out.2.usage.turns = (if msg.role = "assistant" then r.usage.turns + 1 else r.usage.turns) ∧
  (msg.role = "assistant" →
    out.2.usage.input = r.usage.input + usageDelta msg.usage MsgUsage.input ∧
    out.2.usage.output = r.usage.output + usageDelta msg.usage MsgUsage.output ∧
    out.2.usage.cacheRead = r.usage.cacheRead + usageDelta msg.usage MsgUsage.cacheRead ∧
    out.2.usage.cacheWrite = r.usage.cacheWrite + usageDelta msg.usage MsgUsage.cacheWrite ∧
    out.2.usage.cost = r.usage.cost + usageDelta msg.usage MsgUsage.costTotal ∧
    out.2.usage.contextTokens = contextAfter msg.usage r.usage.contextTokens) ∧
  (¬ msg.role = "assistant" →
    out.2.usage = r.usage ∧ out.2.model = r.model ∧
    out.2.stopReason = r.stopReason ∧ out.2.errorMessage = r.errorMessage) ∧
  (msg.role = "assistant" → truthyS r.model = false → truthyS msg.model = true →
    out.2.model = msg.model) ∧
  (truthyS r.model = true → out.2.model = r.model) ∧
  (msg.role = "assistant" → truthyS msg.stopReason = true →
    out.2.stopReason = msg.stopReason) ∧
  (msg.role = "assistant" → truthyS msg.errorMessage = true →
    out.2.errorMessage = msg.errorMessage) ∧
  out.2.exitCode = r.exitCode ∧ out.2.stderr = r.stderr ∧ out.2.agent = r.agent

/-- Invariant of the fan-out machine: the results array keeps its size, every
filled slot already holds the specified value for its index, and every
claimed-but-in-flight index is in range and paired with the item found there. -/
def FanInv (items : List TIn) (fn : TIn → Nat → TOut) (s : FanState TIn TOut) : Prop :=
  s.results.length = items.length ∧
  (∀ i v, s.results.get? i = some (some v) → ∃ x, items.get? i = some x ∧ v = fn x i) ∧
  (∀ w i x, s.workers.get? w = some (.holding i x) → items.get? i = some x)

/-- Sample result record in its initial state (fields as `runAgent` creates
them). -/
def baseResult : SingleResult :=
  { agent := "writer", agentSource := "user", task := "write docs", exitCode := -1,
    messages := [], stderr := "", usage := emptyUsage, model := none,
    stopReason := none, errorMessage := none }

/-- A run that already carries a stream-reported error message when the
abort completion step fires. -/
def abortedPrior : SingleResult :=
  { baseResult with errorMessage := some "upstream model error" }

/-- Sample user-scope agent configuration. -/
def writerAgent : AgentConfig :=
  { name := "writer", description := "writes docs", tools := none, model := none,
    thinking := none, systemPrompt := "", source := "user", filePath := "/u/writer.md" }

/-- Sample project-scope agent configuration. -/
def testerAgent : AgentConfig :=
  { name := "tester", description := "runs tests", tools := none, model := none,
    thinking := none, systemPrompt := "", source := "project", filePath := "/p/tester.md" }

/-- The two known agents of the spec's unknown-agent scenario. -/
def twoAgents : List AgentConfig := [writerAgent, testerAgent]

/-- Assistant message whose usage snapshot reports a context of 100 tokens. -/
def msgTokens100 : Message :=
  { role := "assistant", content := [.text "step one"],
    usage := some { input := some 10, output := some 5, cacheRead := some 0,
                    cacheWrite := some 0, costTotal := some 1, totalTokens := some 100 },
    model := some "m1", stopReason := some "stop", errorMessage := none }

/-- Assistant message whose usage snapshot reports a smaller context of 40
tokens. -/
def msgTokens40 : Message :=
  { role := "assistant", content := [.text "step two"],
    usage := some { input := some 2, output := some 3, cacheRead := some 0,
                    cacheWrite := some 0, costTotal := some 1, totalTokens := some 40 },
    model := some "m1", stopReason := some "stop", errorMessage := none }

/-- Stream line carrying `msgTokens100` as a `message_end` event. -/
def cexLine1 : LineContent := .json { type := some "message_end", message := some msgTokens100 }

/-- Stream line carrying `msgTokens40` as a `message_end` event. -/
def cexLine2 : LineContent := .json { type := some "message_end", message := some msgTokens40 }

/-- Sample worker function for the fan-out witnesses. -/
def addIdx : Nat → Nat → Nat := fun x i => x + i

/-- A schedule that drives two workers over three items to completion. -/
def schedThree : List Nat := [0, 0, 0, 0, 0, 0, 0, 1]

/-- A schedule that drives two workers over two items to completion. -/
def schedTwo : List Nat := [0, 0, 0, 0, 0, 1]

/-- Ten parallel task requests, two beyond the cap. -/
def tenTasks : List TaskItem := List.replicate 10 { agent := "writer", task := "do it", cwd := none }

/-- Stub per-task runner for the parallel-guard witness. -/
def runStub : TaskItem → Nat → SingleResult := fun _ _ => baseResult

/-- Sample completed result with nonzero usage. -/
def resA : SingleResult :=
  { baseResult with
    exitCode := 0,
    usage := { input := 3, output := 4, cacheRead := 1, cacheWrite := 2, cost := 5,
               contextTokens := 70, turns := 2 } }

/-- A second completed result with different usage. -/
def resB : SingleResult :=
  { baseResult with
    agent := "tester",
    exitCode := 0,
    usage := { input := 7, output := 1, cacheRead := 9, cacheWrite := 0, cost := 2,
               contextTokens := 30, turns := 1 } }

/-- Claim C5: the Event-Line Parser applied to an empty line, a
whitespace-only line, or a line on which the JSON parse throws returns
`false` and leaves the result record unchanged. -/
theorem eventLineParser_frame (lineText : String) (content : LineContent)
    (r : SingleResult) (h : jsTrim lineText = "" ∨ content = .notJson) :
    processJsonLine lineText content r = (false, r) := by
  rcases h with h | h
  · simp [processJsonLine, h]
  · subst h
    by_cases hb : jsTrim lineText = "" <;> simp [processJsonLine, hb]

/-- Claim C5 witness: a whitespace-only line carrying a well-formed event is
still a no-op. -/
theorem eventLineParser_frame_witness :
    processJsonLine " \t " cexLine1 baseResult = (false, baseResult) :=
  eventLineParser_frame " \t " cexLine1 baseResult (Or.inl (by decide))

/-- Claim C10: a parsed line whose discriminant is `message_end` or
`tool_result_end` but whose message payload is absent (falsy) returns
`false` and mutates nothing. -/
theorem recognizedKind_missingMessage_frame (lineText : String) (ty : Option String)
    (r : SingleResult) (h : ty = some "message_end" ∨ ty = some "tool_result_end") :
    processJsonLine lineText (.json { type := ty, message := none }) r = (false, r) := by
  by_cases hb : jsTrim lineText = ""
  · simp [processJsonLine, hb]
  · rcases h with h | h <;> subst h <;> simp [processJsonLine, hb]

/-- Claim C10 witness: a `message_end` event without a message payload is a
no-op on a concrete record. -/
theorem recognizedKind_missingMessage_frame_witness :
    processJsonLine "x" (.json { type := some "message_end", message := none })
      baseResult = (false, baseResult) :=
  recognizedKind_missingMessage_frame "x" (some "message_end") baseResult (Or.inl rfl)

/-- Claim C1 counterexample: the abort completion step overwrites an error
message that was already present, where the claim says one is set only if
none is present. -/
theorem abortedRun_overwrites_error :
    abortedPrior.errorMessage = some "upstream model error" ∧
    (finalizeRun true 0 abortedPrior).errorMessage ≠ abortedPrior.errorMessage := by
  decide

/-- Claim C1 (amended): whenever the cancellation token signalled abort
before child exit (`wasAborted`), the completed run has exit status 130 and
stop-reason `aborted` regardless of the child's exit code, its error message
is set to `Subagent was aborted.` unconditionally (replacing any existing
one), and stderr falls back to the same text when it was empty or
whitespace-only, so it ends up non-empty. -/
theorem abortedRun_final (ec : Int) (r : SingleResult) :
    (finalizeRun true ec r).exitCode = 130 ∧
    (finalizeRun true ec r).stopReason = some "aborted" ∧
    (finalizeRun true ec r).errorMessage = some "Subagent was aborted." ∧
    (finalizeRun true ec r).stderr =
      (if jsTrim r.stderr = "" then "Subagent was aborted." else r.stderr) ∧
    (finalizeRun true ec r).stderr ≠ "" := by
  unfold finalizeRun
  by_cases hb : jsTrim r.stderr = ""
  · refine ⟨by simp [hb], by simp [hb], by simp [hb], by simp [hb], by simp [hb]⟩
  · refine ⟨by simp [hb], by simp [hb], by simp [hb], by simp [hb], ?_⟩
    simp only [hb]
    simp only [Bool.false_eq_true, if_true, if_false]
    intro he
    exact hb (by rw [he]; decide)

/-- Claim C1 witness: the amended abort behavior at a concrete run. -/
theorem abortedRun_final_witness :
    (finalizeRun true 7 abortedPrior).exitCode = 130 ∧
    (finalizeRun true 7 abortedPrior).stopReason = some "aborted" ∧
    (finalizeRun true 7 abortedPrior).errorMessage = some "Subagent was aborted." ∧
    (finalizeRun true 7 abortedPrior).stderr =
      (if jsTrim abortedPrior.stderr = "" then "Subagent was aborted."
       else abortedPrior.stderr) ∧
    (finalizeRun true 7 abortedPrior).stderr ≠ "" :=
  abortedRun_final 7 abortedPrior

/-- Claim C2 counterexample: the unknown-agent error message lists the
available agents as comma-joined double-quoted names, not as
`name (source)` pairs as the claim states. -/
theorem unknownAgent_message_format :
    runAgentCheck twoAgents "ghost" "t" =
      some { agent := "ghost", agentSource := "unknown", task := "t", exitCode := 1,
             messages := [],
             stderr := "Unknown agent: \"ghost\". Available agents: \"writer\", \"tester\".",
             usage := emptyUsage, model := none, stopReason := none,
             errorMessage := none } ∧
    strContains "Unknown agent: \"ghost\". Available agents: \"writer\", \"tester\"."
      "writer (user)" = false ∧
    strContains "Unknown agent: \"ghost\". Available agents: \"writer\", \"tester\"."
      "tester (project)" = false := by
  decide

/-- Claim C2 (amended): a single-mode call naming an agent absent from the
known configurations returns, before any process is spawned, a RunResult
with exit status 1 whose stderr enumerates the available agents as
comma-joined double-quoted names (the literal `none` if the set is empty). -/
theorem unknownAgent_earlyReturn (agents : List AgentConfig) (agentName task : String)
    (h : agents.find? (fun a => a.name == agentName) = none) :
    runAgentCheck agents agentName task =
      some { agent := agentName, agentSource := "unknown", task := task, exitCode := 1,
             messages := [], stderr := unknownAgentMessage agentName agents,
             usage := emptyUsage, model := none, stopReason := none,
             errorMessage := none } := by
  unfold runAgentCheck
  rw [h]

/-- Claim C2 witness: requesting `ghost` against known agents `writer` and
`tester` takes the early return with exit status 1 and a message containing
both `writer` and `tester`. -/
theorem unknownAgent_earlyReturn_witness :
    runAgentCheck twoAgents "ghost" "write tests" =
      some { agent := "ghost", agentSource := "unknown", task := "write tests",
             exitCode := 1, messages := [],
             stderr := unknownAgentMessage "ghost" twoAgents,
             usage := emptyUsage, model := none, stopReason := none,
             errorMessage := none } ∧
    strContains (unknownAgentMessage "ghost" twoAgents) "writer" = true ∧
    strContains (unknownAgentMessage "ghost" twoAgents) "tester" = true :=
  ⟨unknownAgent_earlyReturn twoAgents "ghost" "write tests" (by decide),
   by decide, by decide⟩

/-- Claim C8: a parallel invocation requesting more than `MAX_PARALLEL_TASKS`
tasks is rejected with the descriptive message before anything runs: no
result slots are produced and zero per-task runs are started. -/
theorem parallelReject (tasks : List TaskItem) (runOne : TaskItem → Nat → SingleResult)
    (sched : List Nat) (h : tasks.length > maxParallelTasks) :
    executeParallel tasks runOne sched =
      some { text := tooManyTasksMessage tasks.length, results := [],
             spawnCount := 0 } := by
  unfold executeParallel
  rw [if_pos h]

/-- Claim C8 witness: ten requested tasks against the cap of eight are
rejected with the exact message and no work started. -/
theorem parallelReject_witness :
    executeParallel tenTasks runStub [] =
      some { text := tooManyTasksMessage tenTasks.length, results := [],
             spawnCount := 0 } ∧
    tooManyTasksMessage tenTasks.length = "Too many parallel tasks (10). Max is 8." :=
  ⟨parallelReject tenTasks runStub [] (by decide), by decide⟩

/-- The accumulation step of `aggregateUsage` is right-commutative, the key
algebraic fact behind order-invariance of the summation. -/
theorem addUsage_right_comm (t : UsageStats) (a b : SingleResult) :
    addUsage (addUsage t a) b = addUsage (addUsage t b) a := by
  simp [addUsage, UsageStats.mk.injEq]
  omega

/-- Folding `addUsage` is invariant under permutation of the result list. -/
theorem foldl_addUsage_perm {l₁ l₂ : List SingleResult} (h : l₁.Perm l₂) :
    ∀ t, l₁.foldl addUsage t = l₂.foldl addUsage t := by
  induction h with
  | nil => intro t; rfl
  | cons x _ ih => intro t; simp only [List.foldl_cons]; exact ih _
  | swap x y l => intro t; simp only [List.foldl_cons]; rw [addUsage_right_comm]
  | trans _ _ ih₁ ih₂ => intro t; rw [ih₁, ih₂]

/-- Folding `addUsage` never touches `contextTokens`. -/
theorem foldl_addUsage_contextTokens (l : List SingleResult) :
    ∀ t, (l.foldl addUsage t).contextTokens = t.contextTokens := by
  induction l with
  | nil => intro t; rfl
  | cons a l ih => intro t; simp only [List.foldl_cons]; rw [ih]; rfl

/-- Claim C9: summing UsageStats over results is order-invariant in the
additive fields (input, output, cacheRead, cacheWrite, cost, turns), and the
summed instance's `contextTokens` is dropped to zero rather than combined. -/
theorem aggregateUsage_orderInvariant (l₁ l₂ : List SingleResult) (h : l₁.Perm l₂) :
    aggregateUsage l₁ = aggregateUsage l₂ ∧ (aggregateUsage l₁).contextTokens = 0 :=
  ⟨foldl_addUsage_perm h emptyUsage,
   by unfold aggregateUsage; rw [foldl_addUsage_contextTokens]; rfl⟩

/-- Claim C9 witness: two concrete results summed in both orders, with both
inputs carrying nonzero `contextTokens` that the sum drops to zero. -/
theorem aggregateUsage_orderInvariant_witness :
    aggregateUsage [resA, resB] = aggregateUsage [resB, resA] ∧
    (aggregateUsage [resA, resB]).contextTokens = 0 :=
  aggregateUsage_orderInvariant [resA, resB] [resB, resA] (List.Perm.swap resB resA [])

/-- Claim C3 counterexample: `contextTokens` is a snapshot overwritten by
each assistant usage report, so it decreases between two parsed lines whose
reported context shrinks from 100 to 40 — refuting monotonicity of every
UsageStats field. -/
theorem contextTokens_decreases :
    (processJsonLine "e1" cexLine1 baseResult).2.usage.contextTokens = 100 ∧
    (processJsonLine "e2" cexLine2
      (processJsonLine "e1" cexLine1 baseResult).2).2.usage.contextTokens = 40 ∧
    (processJsonLine "e2" cexLine2
        (processJsonLine "e1" cexLine1 baseResult).2).2.usage.contextTokens <
      (processJsonLine "e1" cexLine1 baseResult).2.usage.contextTokens := by
  decide

/-- Claim C3 (amended): provided a parsed line reports no negative usage
value, the six accumulated UsageStats fields (input, output, cacheRead,
cacheWrite, cost, turns) never decrease across one parser application;
`contextTokens` is excluded, being an overwritten snapshot. -/
theorem usage_additive_monotone (lineText : String) (content : LineContent)
    (r : SingleResult) (h : lineNonNeg content = true) :
    AdditiveLE r.usage (processJsonLine lineText content r).2.usage := by
  by_cases hb : jsTrim lineText = ""
  · simp [processJsonLine, hb, AdditiveLE]
  · unfold processJsonLine
    rw [if_neg hb]
    split
    · simp [AdditiveLE]
    · next e =>
      split
      · next msg hty hmsg =>
        simp only [lineNonNeg, hmsg] at h
        show AdditiveLE r.usage (applyMessageEnd msg r).usage
        unfold applyMessageEnd
        by_cases hrole : msg.role = "assistant"
        · rw [if_pos hrole]
          rcases hmu : msg.usage with _ | mu <;> simp only [hmu] at h ⊢
          · split <;> split <;> split <;> (simp [AdditiveLE]; try omega)
          · simp only [muNonNeg, Bool.and_eq_true, decide_eq_true_eq] at h
            split <;> split <;> split <;> (simp [AdditiveLE]; try omega)
        · rw [if_neg hrole]
          simp [AdditiveLE]
      · next msg hty hmsg =>
        simp [AdditiveLE]
      · simp [AdditiveLE]

/-- Claim C3 witness: the amended monotonicity at a concrete line with
non-negative reported usage. -/
theorem usage_additive_monotone_witness :
    AdditiveLE baseResult.usage (processJsonLine "e1" cexLine1 baseResult).2.usage :=
  usage_additive_monotone "e1" cexLine1 baseResult (by decide)

/-- Claim C4: a parsed `message_end` event carrying a message appends it and
returns true; for assistant messages it increments the turn count, folds the
usage deltas into the accumulator while overwriting (not summing) the
context snapshot, records the model only when none is recorded yet, and
records stop-reason and error message last-write-wins. -/
theorem messageEnd_behavior (lineText : String) (e : EventJson) (msg : Message)
    (r : SingleResult) (hblank : ¬ jsTrim lineText = "")
    (hty : e.type = some "message_end") (hmsg : e.message = some msg) :
    MessageEndSpec msg r (processJsonLine lineText (.json e) r) := by
  obtain ⟨ty, m⟩ := e
  simp only at hty hmsg
  subst hty; subst hmsg
  unfold processJsonLine
  rw [if_neg hblank]
  show MessageEndSpec msg r (true, applyMessageEnd msg r)
  unfold MessageEndSpec
  by_cases hrole : msg.role = "assistant"
  · rcases hmu : msg.usage with _ | mu <;>
    by_cases hm1 : truthyS r.model <;>
    by_cases hm2 : truthyS msg.model <;>
    by_cases hs : truthyS msg.stopReason <;>
    by_cases he : truthyS msg.errorMessage <;>
      simp [applyMessageEnd, hrole, hmu, hm1, hm2, hs, he, usageDelta, contextAfter]
  · simp [applyMessageEnd, hrole]

/-- `get?` of a replicated list. -/
theorem get?_replicate {α : Type} (a : α) :
    ∀ (n i : Nat), (List.replicate n a).get? i = if i < n then some a else none := by
  intro n
  induction n with
  | zero => intro i; simp
  | succ n ih =>
    intro i
    cases i with
    | zero => simp [List.replicate]
    | succ i =>
      rw [List.replicate_succ, List.get?_cons_succ, ih i]
      simp [Nat.succ_lt_succ_iff]

/-- The initial fan-out state satisfies the invariant. -/
theorem fanInit_inv (items : List TIn) (fn : TIn → Nat → TOut) (limit : Nat) :
    FanInv items fn (fanInit TIn TOut items.length limit) := by
  refine ⟨by simp [fanInit], ?_, ?_⟩
  · intro i v hv
    simp only [fanInit] at hv
    rw [get?_replicate] at hv
    split at hv <;> simp at hv
  · intro w i x hw
    simp only [fanInit] at hw
    rw [get?_replicate] at hw
    split at hw <;> simp at hw

/-- One fan-out step preserves the invariant. -/
theorem fanStep_inv {items : List TIn} {fn : TIn → Nat → TOut} {s : FanState TIn TOut}
    (hinv : FanInv items fn s) (w : Nat) : FanInv items fn (fanStep items fn s w) := by
  obtain ⟨hlen, hres, hhold⟩ := hinv
  unfold fanStep
  split
  · exact ⟨hlen, hres, hhold⟩
  · next hw =>
    have hwlt : w < s.workers.length := by
      by_contra hge
      rw [List.get?_eq_none.mpr (Nat.le_of_not_lt hge)] at hw
      exact Option.noConfusion hw
    split
    · next x hx =>
      refine ⟨hlen, hres, ?_⟩
      intro w' i' x' hw'
      by_cases hww : w = w'
      · subst hww
        rw [List.get?_set_eq_of_lt _ hwlt] at hw'
        injection hw' with hw'
        cases hw'
        exact hx
      · rw [List.get?_set_ne _ _ hww] at hw'
        exact hhold w' i' x' hw'
    · next hx =>
      refine ⟨hlen, hres, ?_⟩
      intro w' i' x' hw'
      by_cases hww : w = w'
      · subst hww
        rw [List.get?_set_eq_of_lt _ hwlt] at hw'
        injection hw' with hw'
        exact WorkerStatus.noConfusion hw'
      · rw [List.get?_set_ne _ _ hww] at hw'
        exact hhold w' i' x' hw'
  · next i x hw =>
    have hwlt : w < s.workers.length := by
      by_contra hge
      rw [List.get?_eq_none.mpr (Nat.le_of_not_lt hge)] at hw
      exact Option.noConfusion hw
    have hx : items.get? i = some x := hhold w i x hw
    have hilt : i < items.length := by
      by_contra hge
      rw [List.get?_eq_none.mpr (Nat.le_of_not_lt hge)] at hx
      exact Option.noConfusion hx
    refine ⟨by rw [List.length_set]; exact hlen, ?_, ?_⟩
    · intro j v hv
      by_cases hij : i = j
      · subst hij
        rw [List.get?_set_eq_of_lt _ (by rw [hlen]; exact hilt)] at hv
        injection hv with hv
        injection hv with hv
        exact ⟨x, hx, hv.symm⟩
      · rw [List.get?_set_ne _ _ hij] at hv
        exact hres j v hv
    · intro w' i' x' hw'
      by_cases hww : w = w'
      · subst hww
        rw [List.get?_set_eq_of_lt _ hwlt] at hw'
        injection hw' with hw'
        exact WorkerStatus.noConfusion hw'
      · rw [List.get?_set_ne _ _ hww] at hw'
        exact hhold w' i' x' hw'
  · exact ⟨hlen, hres, hhold⟩

/-- Running any schedule preserves the invariant. -/
theorem fanRun_inv {items : List TIn} {fn : TIn → Nat → TOut} (sched : List Nat)
    {s : FanState TIn TOut} (hinv : FanInv items fn s) :
    FanInv items fn (fanRun items fn s sched) := by
  induction sched generalizing s with
  | nil => exact hinv
  | cons w ws ih => exact ih (fanStep_inv hinv w)

/-- A successful `collectSome` preserves length and filled values. -/
theorem collectSome_spec {α : Type} :
    ∀ {l : List (Option α)} {res : List α}, collectSome l = some res →
      res.length = l.length ∧ ∀ i v, res.get? i = some v → l.get? i = some (some v) := by
  intro l
  induction l with
  | nil =>
    intro res h
    simp only [collectSome, Option.some.injEq] at h
    subst h
    exact ⟨rfl, fun i v hv => by simp at hv⟩
  | cons o t ih =>
    intro res h
    cases o with
    | none => simp [collectSome] at h
    | some a =>
      simp only [collectSome, Option.map_eq_some'] at h
      obtain ⟨rt, hrt, hres⟩ := h
      subst hres
      obtain ⟨hlen, hget⟩ := ih hrt
      refine ⟨by simp [hlen], ?_⟩
      intro i v hv
      cases i with
      | zero =>
        simp only [List.get?_cons_zero, Option.some.injEq] at hv
        subst hv
        rfl
      | succ i =>
        simp only [List.get?_cons_succ] at hv ⊢
        exact hget i v hv

/-- `get?` of the index-aware map. -/
theorem idxMapFrom_get? {TIn TOut : Type} (fn : TIn → Nat → TOut) :
    ∀ (l : List TIn) (k i : Nat),
      (idxMapFrom k fn l).get? i = (l.get? i).map (fun a => fn a (k + i)) := by
  intro l
  induction l with
  | nil => intro k i; simp [idxMapFrom]
  | cons a t ih =>
    intro k i
    cases i with
    | zero => simp [idxMapFrom]
    | succ i =>
      simp only [idxMapFrom, List.get?_cons_succ]
      rw [ih (k + 1) i]
      rcases ht : t.get? i with _ | b
      · simp
      · simp only [Option.map_some']
        have hk : k + 1 + i = k + (i + 1) := by omega
        rw [hk]

/-- Claim C6: whenever a schedule drives `mapConcurrent` to completion, the
returned array has the input's length and its element at each index `i` is
`fn items[i] i` — input order is preserved no matter the completion
interleaving; and on the empty list it returns `[]` with zero `fn`
invocations, for any concurrency bound and schedule. -/
theorem mapConcurrent_spec {TIn TOut : Type} (items : List TIn) (conc : Nat)
    (fn : TIn → Nat → TOut) (sched : List Nat) (res : List TOut) (calls : Nat) :
    (mapConcurrent items conc fn sched = some (res, calls) →
      res.length = items.length ∧ res = idxMap items fn) ∧
    mapConcurrent ([] : List TIn) conc fn sched = some ([], 0) := by
  constructor
  · intro h
    unfold mapConcurrent at h
    by_cases hn : items.length = 0
    · rw [if_pos hn] at h
      simp only [Option.some.injEq, Prod.mk.injEq] at h
      obtain ⟨h1, h2⟩ := h
      subst h1
      have : items = [] := List.length_eq_zero.mp hn
      subst this
      exact ⟨rfl, rfl⟩
    · rw [if_neg hn] at h
      simp only at h
      have hinv : FanInv items fn
          (fanRun items fn
            (fanInit TIn TOut items.length (max 1 (min conc items.length))) sched) :=
        fanRun_inv sched (fanInit_inv items fn _)
      set final :=
        fanRun items fn
          (fanInit TIn TOut items.length (max 1 (min conc items.length))) sched with hfinal
      obtain ⟨hlen, hfill, _⟩ := hinv
      by_cases haf : allFinished final = true
      · rw [if_pos haf] at h
        rcases hcs : collectSome final.results with _ | res'
        · rw [hcs] at h
          exact Option.noConfusion h
        · rw [hcs] at h
          simp only [Option.some.injEq, Prod.mk.injEq] at h
          obtain ⟨hr, hc⟩ := h
          rw [hr] at hcs
          obtain ⟨hlen2, hget2⟩ := collectSome_spec hcs
          constructor
          · rw [hlen2, hlen]
          · apply List.ext_get?_iff.mpr
            intro i
            rcases hri : res.get? i with _ | v
            · have hle : items.length ≤ i := by
                rw [← hlen, ← hlen2]
                exact List.get?_eq_none.mp hri
              rw [idxMap, idxMapFrom_get?, List.get?_eq_none.mpr hle]
              rfl
            · have hl := hget2 i v hri
              obtain ⟨x, hx, hv⟩ := hfill i v hl
              rw [idxMap, idxMapFrom_get?, hx]
              simp [hv]
      · rw [if_neg haf] at h
        exact Option.noConfusion h
  · rfl

/-- Claim C6 witness: a concrete completed run over three items with two
workers yields the index-ordered image, and the empty list returns `[]`
without invoking the worker function. -/
theorem mapConcurrent_spec_witness :
    (([10, 21, 32] : List Nat).length = ([10, 20, 30] : List Nat).length ∧
      ([10, 21, 32] : List Nat) = idxMap [10, 20, 30] addIdx) ∧
    mapConcurrent ([] : List Nat) 2 addIdx schedThree = some ([], 0) :=
  ⟨(mapConcurrent_spec [10, 20, 30] 2 addIdx schedThree [10, 21, 32] 3).1 (by decide),
   (mapConcurrent_spec [10, 20, 30] 2 addIdx schedThree [10, 21, 32] 3).2⟩

/-- Claim C7: requesting more concurrency than there are items behaves
identically to requesting exactly the item count — the effective concurrency
is clamped to `max 1 (min requested count)` — under every schedule. -/
theorem mapConcurrent_clamp {TIn TOut : Type} (items : List TIn) (conc : Nat)
    (fn : TIn → Nat → TOut) (sched : List Nat) (h : items.length < conc) :
    mapConcurrent items conc fn sched = mapConcurrent items items.length fn sched := by
  unfold mapConcurrent
  by_cases hn : items.length = 0
  · rw [if_pos hn, if_pos hn]
  · rw [if_neg hn, if_neg hn]
    rw [Nat.min_eq_right (Nat.le_of_lt h), Nat.min_self]

/-- Claim C7 witness: concurrency 99 over two items equals concurrency 2
under a completing schedule. -/
theorem mapConcurrent_clamp_witness :
    mapConcurrent [5, 6] 99 addIdx schedTwo = mapConcurrent [5, 6] 2 addIdx schedTwo :=
  mapConcurrent_clamp [5, 6] 99 addIdx schedTwo (by decide)

/-- Claim C4 witness: the full `message_end` behavior at a concrete
assistant message with usage, model, and stop-reason. -/
theorem messageEnd_behavior_witness :
    MessageEndSpec msgTokens100 baseResult
      (processJsonLine "x"
        (.json { type := some "message_end", message := some msgTokens100 })
        baseResult) :=
  messageEnd_behavior "x" { type := some "message_end", message := some msgTokens100 }
    msgTokens100 baseResult (by decide) rfl rfl

end PiSubagent
